import Mathlib

/-!
# Verification of the micrec core (src/main.rs)

Shallow embedding of the micrec application: the amplitude-bucketing
aggregator `process_audio_samples`, the resize policy `update_bar_count`,
the key-event dispatch `handle_key_event` / `stop_recording`, the audio
capture startup `record_audio`, and the control loop `App.run`.

Samples and bucket values are modelled as real numbers (the Rust source
uses `f32`; we verify the idealized real-arithmetic behaviour of the same
expressions).  Machine integers (`usize`, `u16`) are modelled as `Nat`,
with `Nat` subtraction playing the role of `saturating_sub` and `Nat`
division the role of Rust integer division.  Fallible operations
(`unwrap` on `Option`/`Result`) are modelled with `Except`: an `unwrap`
of a missing value becomes an `Except.error` (a panic of the thread
executing it).
-/

namespace Micrec

/-! ## The aggregator (App::process_audio_samples, main.rs lines 108-130) -/

/-- Start of the chunk for bar `i`: `let start = i * chunk_size;`. -/
def chunkStart (chunkSize i : ℕ) : ℕ := i * chunkSize

/-- End of the chunk for bar `i`:
`let end = if i == num_bars - 1 { samples.len() } else { (i + 1) * chunk_size };`. -/
def chunkEnd (sampleLen numBars chunkSize i : ℕ) : ℕ :=
  if i = numBars - 1 then sampleLen else (i + 1) * chunkSize

/-- The chunk slice `&samples[start..end]`. -/
def chunkOf (samples : List ℝ) (numBars chunkSize i : ℕ) : List ℝ :=
  (samples.take (chunkEnd samples.length numBars chunkSize i)).drop
    (chunkStart chunkSize i)

/-- RMS of one chunk:
`(chunk.iter().map(|&x| x * x).sum::<f32>() / chunk.len() as f32).sqrt()`. -/
noncomputable def chunkRms (chunk : List ℝ) : ℝ :=
  Real.sqrt ((chunk.map fun x => x * x).sum / chunk.length)

/-- The value stored into one bar: `*bar_value = (rms * 10.0).min(1.0);`. -/
noncomputable def barValueOf (chunk : List ℝ) : ℝ :=
  min (chunkRms chunk * 10) 1

/-- Embedding of `App::process_audio_samples`, acting on the locked `bar_values` vector:
compute `chunk_size = samples.len() / bars.len()`, return the bars
unchanged if it is zero, otherwise overwrite every bar with the clamped
RMS of its chunk. -/
noncomputable def process_audio_samples (samples bars : List ℝ) : List ℝ :=
  let chunkSize := samples.length / bars.length
  if chunkSize = 0 then bars
  else
    (List.range bars.length).map fun i =>
      barValueOf (chunkOf samples bars.length chunkSize i)

/-! ## The resize policy (App::update_bar_count, main.rs lines 78-87) -/

/-- Rust `Vec::resize(new_len, value)`: truncate when shrinking, pad with
`value` when growing. -/
def vecResize (l : List ℝ) (newLen : ℕ) (value : ℝ) : List ℝ :=
  if newLen ≤ l.length then l.take newLen
  else l ++ List.replicate (newLen - l.length) value

/-- The bar count computed from a terminal width:
`let usable_width = terminal_width.saturating_sub(4);`
`let optimal_bar_count = (usable_width / 2).max(10) as usize;`. -/
def optimalBarCount (terminalWidth : ℕ) : ℕ :=
  max ((terminalWidth - 4) / 2) 10

/-- Embedding of `App::update_bar_count`: resize the bar vector to the optimal count,
filling new slots with `0.0`. -/
def update_bar_count (terminalWidth : ℕ) (bars : List ℝ) : List ℝ :=
  vecResize bars (optimalBarCount terminalWidth) 0

/-! ## Application state (struct App, main.rs lines 16-35)

`bar_values: Arc<Mutex<Vec<f32>>>` is modelled as the list it guards
(all accesses are from the control thread).  `shutdown_tx:
Option<Sender<()>>` is modelled by the flag `shutdownTxSet` together
with a counter `shutdownSends` of messages sent on the shutdown
channel. -/

structure App where
  barValues : List ℝ
  exitFlag : Bool
  recording : Bool
  shutdownTxSet : Bool
  shutdownSends : ℕ
  lastTerminalWidth : ℕ

/-- Embedding of `impl Default for App`: fifty bars at `0.0`, not exited, recording,
no shutdown sender installed, last seen width `0`. -/
def App.default : App :=
  { barValues := List.replicate 50 0
    exitFlag := false
    recording := true
    shutdownTxSet := false
    shutdownSends := 0
    lastTerminalWidth := 0 }

/-- Embedding of `App::exit`: `self.exit = true;`. -/
def App.exitApp (s : App) : App := { s with exitFlag := true }

/-- Embedding of `App::stop_recording`: send on the shutdown channel when the sender
is installed, then `self.recording = false;`. -/
def App.stop_recording (s : App) : App :=
  { s with
    shutdownSends :=
      if s.shutdownTxSet then s.shutdownSends + 1 else s.shutdownSends
    recording := false }

/-- The key events the dispatcher distinguishes: space, the letter q,
anything else. -/
inductive KeyEvt where
  | space : KeyEvt
  | charQ : KeyEvt
  | other : KeyEvt

/-- Embedding of `App::handle_key_event`: space stops recording only while
`self.recording` holds (the match guard), q exits, everything else is
ignored. -/
def App.handle_key_event (s : App) (e : KeyEvt) : App :=
  match e with
  | .space => if s.recording then s.stop_recording else s
  | .charQ => s.exitApp
  | .other => s

/-- Embedding of the `App::draw` width handling (main.rs lines 68-76): when the frame
width differs from the last observed width, update the bar count and
record the new width. -/
def App.draw (s : App) (width : ℕ) : App :=
  if width ≠ s.lastTerminalWidth then
    { s with
      barValues := update_bar_count width s.barValues
      lastTerminalWidth := width }
  else s

/-- One observable event inside an iteration of the control loop: a
sample buffer drained from the audio channel, a draw at some terminal
width, or a key press. -/
inductive LoopEvent where
  | audio : List ℝ → LoopEvent
  | draw : ℕ → LoopEvent
  | key : KeyEvt → LoopEvent

/-- Effect of one loop event on the application state. -/
noncomputable def App.step (s : App) : LoopEvent → App
  | .audio samples => { s with barValues := process_audio_samples samples s.barValues }
  | .draw w => s.draw w
  | .key k => s.handle_key_event k

/-- The `while !self.exit` loop: process events until the exit flag is
set (or events run out). -/
noncomputable def App.runLoop : App → List LoopEvent → App
  | s, [] => s
  | s, e :: es => if s.exitFlag then s else App.runLoop (s.step e) es

/-! ## Audio-capture startup (record_audio, main.rs lines 219-247) -/

/-- What the cpal backend can supply; each `false` makes the
corresponding `unwrap` in `record_audio` panic. -/
structure AudioBackend where
  hasDefaultInputDevice : Bool
  hasDefaultInputConfig : Bool
  buildInputStreamOk : Bool
  playOk : Bool

/-- Embedding of `record_audio` up to entering its poll loop:
`host.default_input_device().unwrap()`,
`device.default_input_config().unwrap()`,
`device.build_input_stream(..).unwrap()`, `stream.play().unwrap()`.
An `Except.error` is a panic of the audio thread. -/
def record_audio (b : AudioBackend) : Except String Unit := do
  if !b.hasDefaultInputDevice then throw "no default input device"
  if !b.hasDefaultInputConfig then throw "no default input config"
  if !b.buildInputStreamOk then throw "cannot build input stream"
  if !b.playOk then throw "cannot play stream"
  pure ()

/-- Outcome of `App::run`: what happened to the spawned audio thread,
whether the control loop was entered, the final state (whose
`shutdownSends` counts messages sent on the shutdown channel), whether
the audio thread was joined before returning, and the returned
`io::Result`. -/
structure RunOutcome where
  audioThread : Except String Unit
  enteredControlLoop : Bool
  final : App
  joinedBeforeReturn : Bool
  result : Except String Unit

/-- Embedding of `App::run` (main.rs lines 38-66): install the shutdown sender, spawn
the audio thread (its panic, if any, stays on that thread), run the
control loop unconditionally, then send on the shutdown channel once
more, join the audio thread discarding its outcome, and return
`Ok(())`. -/
noncomputable def App.run (b : AudioBackend) (s : App) (events : List LoopEvent) :
    RunOutcome :=
  let s1 : App := { s with shutdownTxSet := true }
  let s2 := App.runLoop s1 events
  let s3 : App := { s2 with shutdownSends := s2.shutdownSends + 1 }
  { audioThread := record_audio b
    enteredControlLoop := true
    final := s3
    joinedBeforeReturn := true
    result := .ok () }

/-! ## Spec-side mirror of the per-bucket formula (spec §4.2) -/

/-- Modelled from the spec words, for comparison with the code:
`chunkSize = N / B`; bucket `i`'s chunk spans `[i·chunkSize,
(i+1)·chunkSize)` except the last bucket which extends to `N`;
`RMS = sqrt(mean(sample²))`; `BucketValue[i] = min(RMS × 10.0, 1.0)`. -/
noncomputable def specRmsBucket (samples : List ℝ) (b i : ℕ) : ℝ :=
  let n := samples.length
  let cs := n / b
  let chunk := (samples.take (if i = b - 1 then n else (i + 1) * cs)).drop (i * cs)
  min (Real.sqrt ((chunk.map fun x => x * x).sum / chunk.length) * 10) 1

/-! ## Helper lemmas -/

theorem barValueOf_unit (c : List ℝ) : 0 ≤ barValueOf c ∧ barValueOf c ≤ 1 := by
  refine ⟨le_min ?_ zero_le_one, min_le_right _ _⟩
  exact mul_nonneg (Real.sqrt_nonneg _) (by norm_num)

theorem process_audio_samples_length (samples bars : List ℝ) :
    (process_audio_samples samples bars).length = bars.length := by
  unfold process_audio_samples
  by_cases h : samples.length / bars.length = 0 <;> simp [h]

/-! ## C9 — startup state -/

/-- C9: at startup, before any resize, the bucket store holds exactly 50
values, all equal to 0.0. -/
theorem default_fifty_zero_bars :
    App.default.barValues = List.replicate 50 (0 : ℝ) ∧
    App.default.barValues.length = 50 := by
  exact ⟨rfl, rfl⟩

/-! ## C4 — aggregation is a no-op when the buffer is smaller than the
bucket count -/

/-- C4: for a sample buffer of length N and a bucket vector of length
B ≥ 1 with N < B (so chunkSize = 0), process_audio_samples returns the
bucket store completely unchanged. -/
theorem process_noop_when_buffer_small (samples bars : List ℝ)
    (_hB : 1 ≤ bars.length) (hNB : samples.length < bars.length) :
    process_audio_samples samples bars = bars := by
  unfold process_audio_samples
  simp [Nat.div_eq_of_lt hNB]

/-- Witness for C4 at a concrete input: a 3-sample buffer against 10
buckets is left unchanged. -/
theorem process_noop_when_buffer_small_witness :
    process_audio_samples [1, -1, 1] (List.replicate 10 (0.5 : ℝ)) =
      List.replicate 10 (0.5 : ℝ) :=
  process_noop_when_buffer_small [1, -1, 1] (List.replicate 10 (0.5 : ℝ))
    (by simp) (by simp)

/-! ## C1 — aggregation produces exactly B values, each in [0, 1] -/

/-- C1: for every sample buffer of length N and bucket vector of length
B with B ≥ 1 and N ≥ B, process_audio_samples produces exactly B bucket
values, and every produced value lies in [0.0, 1.0]. -/
theorem process_produces_B_unit_values (samples bars : List ℝ)
    (hB : 1 ≤ bars.length) (hNB : bars.length ≤ samples.length) :
    (process_audio_samples samples bars).length = bars.length ∧
    ∀ v ∈ process_audio_samples samples bars, 0 ≤ v ∧ v ≤ 1 := by
  have hcs : ¬ samples.length / bars.length = 0 := by
    have h1 : 1 ≤ samples.length / bars.length :=
      (Nat.one_le_div_iff (lt_of_lt_of_le Nat.zero_lt_one hB)).mpr hNB
    omega
  refine ⟨process_audio_samples_length samples bars, ?_⟩
  intro v hv
  unfold process_audio_samples at hv
  rw [if_neg hcs] at hv
  simp only [List.mem_map, List.mem_range] at hv
  obtain ⟨i, -, rfl⟩ := hv
  exact barValueOf_unit _

/-- Witness for C1 at a concrete input: a 4-sample buffer against 2
buckets. -/
theorem process_produces_B_unit_values_witness :
    (process_audio_samples [1, -1, 1, -1] [0.3, 0.7]).length = 2 ∧
    ∀ v ∈ process_audio_samples [1, -1, 1, -1] [0.3, 0.7], 0 ≤ v ∧ v ≤ 1 := by
  have h := process_produces_B_unit_values [1, -1, 1, -1] [0.3, 0.7]
    (by norm_num) (by norm_num)
  simpa using h

/-! ## C2 — per-bucket chunking and RMS formula -/

/-- C2: whenever chunkSize = N / B ≥ 1, bucket i is computed over the
chunk [i·chunkSize, (i+1)·chunkSize) — except the last bucket, whose
chunk extends to N — and the stored value equals
min(sqrt(mean of squared samples over the chunk) × 10.0, 1.0); moreover
buffer [0,0,0,0] with B = 2 yields [0.0, 0.0] and buffer [1,-1,1,-1]
with B = 2 yields [1.0, 1.0]. -/
theorem process_bucket_formula :
    (∀ samples bars : List ℝ, 1 ≤ samples.length / bars.length →
      ∀ i, i < bars.length →
        (process_audio_samples samples bars)[i]? =
          some (specRmsBucket samples bars.length i)) ∧
    (∀ bs : List ℝ, bs.length = 2 →
      process_audio_samples [0, 0, 0, 0] bs = [0, 0] ∧
      process_audio_samples [1, -1, 1, -1] bs = [1, 1]) := by
  constructor
  · intro samples bars hcs i hi
    have hcs' : ¬ samples.length / bars.length = 0 := by omega
    unfold process_audio_samples
    rw [if_neg hcs']
    rw [List.getElem?_map, List.getElem?_range hi]
    rfl
  · intro bs hbs
    constructor
    · simp [process_audio_samples, hbs, chunkOf, chunkEnd, chunkStart,
        barValueOf, chunkRms, List.range_succ]
    · simp [process_audio_samples, hbs, chunkOf, chunkEnd, chunkStart,
        barValueOf, chunkRms, List.range_succ]
      norm_num

/-- Witness for C2 at concrete inputs: both scenarios with the store
[0.3, 0.7], and the formula instance at bucket 0. -/
theorem process_bucket_formula_witness :
    (process_audio_samples [0, 0, 0, 0] [0.3, 0.7] = [0, 0] ∧
     process_audio_samples [1, -1, 1, -1] [0.3, 0.7] = [1, 1]) ∧
    (process_audio_samples [1, -1, 1, -1] [0.3, 0.7])[0]? =
      some (specRmsBucket [1, -1, 1, -1] 2 0) := by
  have h1 := process_bucket_formula.2 [0.3, 0.7] (by norm_num)
  have h2 := process_bucket_formula.1 [1, -1, 1, -1] [0.3, 0.7]
    (by norm_num) 0 (by norm_num)
  exact ⟨h1, by simpa using h2⟩

/-! ## C10 — slicing bounds and no division by zero -/

/-- C10: for B ≥ 1 and chunkSize = N / B ≥ 1, every chunk satisfies
start < end ≤ N, so the slice `&samples[start..end]` is in bounds and
nonempty — the division by `chunk.len()` never divides by zero. -/
theorem chunk_slicing_safe (samples bars : List ℝ)
    (hB : 1 ≤ bars.length)
    (hcs : 1 ≤ samples.length / bars.length) :
    ∀ i, i < bars.length →
      chunkStart (samples.length / bars.length) i <
        chunkEnd samples.length bars.length (samples.length / bars.length) i ∧
      chunkEnd samples.length bars.length (samples.length / bars.length) i ≤
        samples.length ∧
      1 ≤ (chunkOf samples bars.length (samples.length / bars.length) i).length := by
  intro i hi
  set N := samples.length with hN
  set B := bars.length with hBdef
  set cs := N / B with hcsdef
  have hmul : cs * B ≤ N := Nat.div_mul_le_self N B
  have hstart_end : chunkStart cs i < chunkEnd N B cs i ∧ chunkEnd N B cs i ≤ N := by
    by_cases hlast : i = B - 1
    · rw [chunkStart, chunkEnd, if_pos hlast]
      refine ⟨?_, le_refl N⟩
      have hsucc : B - 1 + 1 = B := Nat.succ_pred_eq_of_pos hB
      have hBcs : (B - 1) * cs + cs = B * cs := by
        calc (B - 1) * cs + cs = (B - 1 + 1) * cs := (Nat.succ_mul _ _).symm
        _ = B * cs := by rw [hsucc]
      calc i * cs = (B - 1) * cs := by rw [hlast]
        _ < (B - 1) * cs + cs := by omega
        _ = B * cs := hBcs
        _ = cs * B := Nat.mul_comm _ _
        _ ≤ N := hmul
    · rw [chunkStart, chunkEnd, if_neg hlast]
      constructor
      · have : (0:ℕ) < cs := hcs
        exact (Nat.mul_lt_mul_right this).mpr (Nat.lt_succ_self i)
      · calc (i + 1) * cs ≤ B * cs := Nat.mul_le_mul_right cs hi
          _ = cs * B := Nat.mul_comm _ _
          _ ≤ N := hmul
  refine ⟨hstart_end.1, hstart_end.2, ?_⟩
  have hlen : (chunkOf samples B cs i).length =
      chunkEnd N B cs i - chunkStart cs i := by
    simp [chunkOf, List.length_drop, List.length_take, ← hN,
      Nat.min_eq_left hstart_end.2]
  omega

/-- Witness for C10 at a concrete input: the last chunk of a 4-sample
buffer with 2 buckets. -/
theorem chunk_slicing_safe_witness :
    chunkStart 2 1 < chunkEnd 4 2 2 1 ∧ chunkEnd 4 2 2 1 ≤ 4 ∧
    1 ≤ (chunkOf [1, -1, 1, -1] 2 2 1).length := by
  have h := chunk_slicing_safe [1, -1, 1, -1] [0.3, 0.7]
    (by norm_num) (by norm_num) 1 (by norm_num)
  simpa using h

/-! ## C5 — resize policy -/

theorem vecResize_length (l : List ℝ) (n : ℕ) (v : ℝ) :
    (vecResize l n v).length = n := by
  unfold vecResize
  split
  · simpa using Nat.min_eq_left ‹n ≤ l.length›
  · simp only [List.length_append, List.length_replicate]
    omega

/-- C5: a resize at observed width w sets the bucket count to
max(10, (w − 4) / 2) (with saturating subtraction), preserves the first
min(oldCount, newCount) values positionally, initializes any new slot
to 0.0; width 40 gives 18 buckets, width 80 gives 38, and growing an
18-entry store at width 80 appends twenty 0.0 entries. -/
theorem update_bar_count_policy (w : ℕ) (bars : List ℝ) :
    (update_bar_count w bars).length = max 10 ((w - 4) / 2) ∧
    (∀ i, i < min bars.length (optimalBarCount w) →
      (update_bar_count w bars).getD i 0 = bars.getD i 0) ∧
    (∀ i, bars.length ≤ i → i < optimalBarCount w →
      (update_bar_count w bars).getD i 0 = 0) ∧
    (optimalBarCount 40 = 18 ∧ optimalBarCount 80 = 38) ∧
    (∀ bs : List ℝ, bs.length = 18 →
      update_bar_count 80 bs = bs ++ List.replicate 20 0) := by
  refine ⟨?_, ?_, ?_, ⟨by norm_num [optimalBarCount], by norm_num [optimalBarCount]⟩, ?_⟩
  · rw [update_bar_count, vecResize_length, optimalBarCount, Nat.max_comm]
  · intro i hi
    rw [update_bar_count, vecResize]
    split
    · rw [List.getD_eq_getElem?_getD, List.getElem?_take,
        if_pos (lt_of_lt_of_le hi (min_le_right _ _)), ← List.getD_eq_getElem?_getD]
    · rw [List.getD_eq_getElem?_getD, List.getElem?_append,
        if_pos (lt_of_lt_of_le hi (min_le_left _ _)), ← List.getD_eq_getElem?_getD]
  · intro i hlo hhi
    rw [update_bar_count, vecResize]
    split
    · omega
    · rw [List.getD_eq_getElem?_getD, List.getElem?_append_right hlo]
      have : i - bars.length < optimalBarCount w - bars.length := by omega
      simp [this]
  · intro bs hbs
    rw [update_bar_count, vecResize]
    rw [if_neg (by rw [hbs]; norm_num [optimalBarCount])]
    rw [hbs]
    norm_num [optimalBarCount]

/-- Witness for C5 at a concrete input: an 18-entry store resized at
width 80. -/
theorem update_bar_count_policy_witness :
    (update_bar_count 80 (List.replicate 18 (0.5 : ℝ))).length = max 10 ((80 - 4) / 2) ∧
    (update_bar_count 80 (List.replicate 18 (0.5 : ℝ))).getD 0 0 =
      (List.replicate 18 (0.5 : ℝ)).getD 0 0 ∧
    (update_bar_count 80 (List.replicate 18 (0.5 : ℝ))).getD 20 0 = 0 ∧
    update_bar_count 80 (List.replicate 18 (0.5 : ℝ)) =
      List.replicate 18 (0.5 : ℝ) ++ List.replicate 20 0 := by
  have h := update_bar_count_policy 80 (List.replicate 18 (0.5 : ℝ))
  refine ⟨h.1, ?_, ?_, ?_⟩
  · exact h.2.1 0 (by norm_num [optimalBarCount])
  · exact h.2.2.1 20 (by norm_num) (by norm_num [optimalBarCount])
  · exact h.2.2.2.2 (List.replicate 18 (0.5 : ℝ)) (by norm_num)

/-! ## C6 — the recording flag transitions at most once -/

/-- C6: the recording state transitions at most once, from Recording to
Stopped, and never reverses: a stop (space) key while Recording sets it
to Stopped; any stop key while already Stopped leaves the state
completely unchanged; a quit (q) key sets the exit flag regardless of
the recording state. -/
theorem recording_transitions_once :
    (∀ s : App, s.recording = false → s.handle_key_event .space = s) ∧
    (∀ s : App, s.recording = true → (s.handle_key_event .space).recording = false) ∧
    (∀ (s : App) (e : KeyEvt),
      (s.handle_key_event e).recording = true → s.recording = true) ∧
    (∀ s : App, (s.handle_key_event .charQ).exitFlag = true) := by
  refine ⟨?_, ?_, ?_, ?_⟩
  · intro s h
    simp [App.handle_key_event, h]
  · intro s h
    simp [App.handle_key_event, h, App.stop_recording]
  · intro s e h
    cases e with
    | space =>
      by_cases hr : s.recording
      · exact hr
      · simp only [App.handle_key_event, if_neg hr] at h
        exact h
    | charQ => exact h
    | other => exact h
  · intro s
    simp [App.handle_key_event, App.exitApp]

/-- Witness for C6 at a concrete state: from the default state, space
stops recording, a second space is a strict no-op, and q exits. -/
theorem recording_transitions_once_witness :
    (App.default.handle_key_event .space).recording = false ∧
    (App.default.handle_key_event .space).handle_key_event .space =
      App.default.handle_key_event .space ∧
    (App.default.handle_key_event .charQ).exitFlag = true := by
  have h1 := recording_transitions_once.2.1 App.default rfl
  have h2 := recording_transitions_once.1 (App.default.handle_key_event .space) h1
  have h3 := recording_transitions_once.2.2.2 App.default
  exact ⟨h1, h2, h3⟩

/-! ## C3 — shutdown-signal counting across a run -/

/-- The measure sends + (1 if still recording) never increases under a
loop event: stopping converts the pending send into an actual one. -/
theorem step_sends_measure (s : App) (e : LoopEvent) :
    (s.step e).shutdownSends + (if (s.step e).recording then 1 else 0) ≤
      s.shutdownSends + (if s.recording then 1 else 0) := by
  cases e with
  | audio samples => exact le_refl _
  | draw w =>
    simp only [App.step, App.draw]
    split <;> exact le_refl _
  | key k =>
    cases k with
    | space =>
      by_cases hr : s.recording
      · by_cases ht : s.shutdownTxSet <;>
          simp [App.step, App.handle_key_event, hr, App.stop_recording, ht]
      · simp only [App.step, App.handle_key_event, if_neg hr]
        exact le_refl _
    | charQ => exact le_refl _
    | other => exact le_refl _

theorem runLoop_sends_measure (events : List LoopEvent) :
    ∀ s : App,
      (App.runLoop s events).shutdownSends +
          (if (App.runLoop s events).recording then 1 else 0) ≤
        s.shutdownSends + (if s.recording then 1 else 0) := by
  induction events with
  | nil => intro s; exact le_refl _
  | cons e es ih =>
    intro s
    rw [App.runLoop]
    split
    · exact le_refl _
    · exact le_trans (ih (s.step e)) (step_sends_measure s e)

/-- Counterexample to C3 as stated: with stop pressed twice and then
quit, two messages are sent on the shutdown channel during the run (one
by stop_recording, one unconditionally after the loop), not exactly
one. -/
theorem shutdown_sent_twice_counterexample :
    (App.run ⟨true, true, true, true⟩ App.default
        [.key .space, .key .space, .key .charQ]).final.shutdownSends = 2 ∧
    ¬ (App.run ⟨true, true, true, true⟩ App.default
        [.key .space, .key .space, .key .charQ]).final.shutdownSends = 1 := by
  constructor
  · simp [App.run, App.runLoop, App.step, App.handle_key_event,
      App.stop_recording, App.exitApp, App.default]
  · simp [App.run, App.runLoop, App.step, App.handle_key_event,
      App.stop_recording, App.exitApp, App.default]

/-- C3 as amended: across any run, between one and two messages are sent
on the shutdown channel (one unconditionally when the loop exits, plus
one when stop was pressed while recording), and the audio capture
thread is always joined before run returns. -/
theorem shutdown_sends_bounds (b : AudioBackend) (events : List LoopEvent) :
    1 ≤ (App.run b App.default events).final.shutdownSends ∧
    (App.run b App.default events).final.shutdownSends ≤ 2 ∧
    (App.run b App.default events).joinedBeforeReturn = true := by
  obtain ⟨s1, hs0, hs1, hfinal⟩ :
      ∃ s1 : App, s1.shutdownSends = 0 ∧ s1.recording = true ∧
        (App.run b App.default events).final.shutdownSends =
          (App.runLoop s1 events).shutdownSends + 1 :=
    ⟨{ App.default with shutdownTxSet := true }, rfl, rfl, rfl⟩
  have h := runLoop_sends_measure events s1
  rw [hs0, hs1] at h
  simp only [if_true] at h
  refine ⟨?_, ?_, rfl⟩ <;> rw [hfinal]
  · omega
  · split at h <;> omega

/-! ## C7 — startup failure of the audio backend -/

/-- Evaluation of the code at the failing input for C7: with no default
input device, record_audio panics (on the spawned audio thread), yet
App.run still enters the control loop and returns Ok — the process does
not abort before the control loop. -/
theorem no_device_still_enters_loop :
    record_audio ⟨false, true, true, true⟩ = .error "no default input device" ∧
    (App.run ⟨false, true, true, true⟩ App.default [.key .charQ]).audioThread =
      .error "no default input device" ∧
    (App.run ⟨false, true, true, true⟩ App.default
      [.key .charQ]).enteredControlLoop = true ∧
    (App.run ⟨false, true, true, true⟩ App.default [.key .charQ]).result =
      .ok () :=
  ⟨rfl, rfl, rfl, rfl⟩

/-! ## C8 — bucket-count invariant -/

theorem update_bar_count_length (w : ℕ) (bars : List ℝ) :
    10 ≤ (update_bar_count w bars).length := by
  rw [update_bar_count, vecResize_length]
  exact le_max_right _ _

theorem step_barValues_length (s : App) (e : LoopEvent)
    (h : 10 ≤ s.barValues.length) : 10 ≤ (s.step e).barValues.length := by
  cases e with
  | audio samples =>
    show 10 ≤ (process_audio_samples samples s.barValues).length
    rw [process_audio_samples_length]
    exact h
  | draw w =>
    simp only [App.step, App.draw]
    split
    · exact update_bar_count_length w s.barValues
    · exact h
  | key k =>
    cases k with
    | space =>
      by_cases hr : s.recording
      · simpa only [App.step, App.handle_key_event, if_pos hr] using h
      · simpa only [App.step, App.handle_key_event, if_neg hr] using h
    | charQ => exact h
    | other => exact h

theorem runLoop_barValues_length (events : List LoopEvent) :
    ∀ s : App, 10 ≤ s.barValues.length →
      10 ≤ (App.runLoop s events).barValues.length := by
  induction events with
  | nil => intro s h; exact h
  | cons e es ih =>
    intro s h
    rw [App.runLoop]
    split
    · exact h
    · exact ih (s.step e) (step_barValues_length s e h)

/-- C8: after startup and any sequence of loop events (aggregations,
draws/resizes, key presses), the bucket store holds at least 10 values,
and aggregation never changes the number of values. -/
theorem bucket_count_invariant :
    (∀ (b : AudioBackend) (events : List LoopEvent),
      10 ≤ (App.run b App.default events).final.barValues.length) ∧
    (∀ samples bars : List ℝ,
      (process_audio_samples samples bars).length = bars.length) := by
  constructor
  · intro b events
    show 10 ≤ (App.runLoop { App.default with shutdownTxSet := true } events).barValues.length
    exact runLoop_barValues_length events _ (by norm_num [App.default])
  · exact process_audio_samples_length

end Micrec
